import Mathlib

/-!
Verification of the plugin-routing and conversation-state core of the
Personal-asst repository.  The Python source (src/core/assistant.py,
src/core/plugin_manager.py, src/core/conversation.py, src/core/plugin_base.py)
is shallowly embedded below: Python dicts become insertion-ordered association
lists, `datetime.now()` values become explicit string parameters, and code that
may raise (the polymorphic plugin callbacks `can_handle` / `execute`, which run
arbitrary plugin code) is modelled with `Except String`.  Everything the core
itself computes (context building, the routing scan, the bounded history, the
fallback responder) is pure in the source and embedded as total functions.
-/

namespace Assistant

/-- An entry of `ConversationManager.conversation_history`
(conversation.py, `add_exchange`): the dict
with keys "timestamp", "user" and "assistant". -/
structure Exchange where
  timestamp : String
  user : String
  assistant : String
  deriving DecidableEq

/-- A context map (Python `Dict[str, Any]`), modelled as an association list in
insertion order; the values that matter to the claims (timestamps, the raw
input) are strings. -/
abbrev Ctx := List (String × String)

/-- Python dict assignment `d[k] = v`: overwrite in place when the key is
present (keeping its position), append otherwise. -/
def dictInsert {V : Type} (d : List (String × V)) (k : String) (v : V) :
    List (String × V) :=
  if d.any (fun p => p.1 == k) then
    d.map (fun p => if p.1 == k then (k, v) else p)
  else
    d ++ [(k, v)]

/-- Python dict lookup `d[k]` / `k in d`: the first (and, for dicts built only
with `dictInsert`, unique) entry with key `k`. -/
def dictLookup {V : Type} (d : List (String × V)) (k : String) : Option V :=
  (d.find? (fun p => p.1 == k)).map (fun p => p.2)

/-- The value the LAST binding of `k` in `l` carries, if any: what a sequence
of dict assignments for the entries of `l` leaves under `k`. -/
def lookupLast {V : Type} : List (String × V) → String → Option V
  | [], _ => none
  | kv :: rest, k =>
    match lookupLast rest k with
    | some v => some v
    | none => if kv.1 == k then some kv.2 else none

/-- A plugin instance (plugin_base.py `BasePlugin`): the `enabled` flag read
from its configuration, and the two polymorphic callbacks.  Plugin code is
arbitrary and may raise, so the callbacks return `Except String`
(`.error` = a raised exception carrying its message). -/
structure Plugin where
  enabled : Bool
  can_handle : String → Except String Bool
  execute : String → Ctx → Except String String

/-- plugin_base.py `BasePlugin.is_enabled`. -/
def is_enabled (p : Plugin) : Bool :=
  p.enabled

/-- The plugin registry `PluginManager.plugins` (plugin_manager.py): a Python
dict from name to plugin instance, iterated in insertion order. -/
abbrev Registry := List (String × Plugin)

/-- conversation.py `ConversationManager.add_exchange`: append the new
exchange, then keep only the last 50 entries (`history[-50:]`) when the length
exceeds 50.  The `datetime.now().isoformat()` timestamp is the explicit
parameter `ts`. -/
def add_exchange (history : List Exchange) (ts user_input assistant_response : String) :
    List Exchange :=
  let h := history ++ [⟨ts, user_input, assistant_response⟩]
  if h.length > 50 then h.drop (h.length - 50) else h

/-- conversation.py `ConversationManager.reset`: `conversation_history.clear()`. -/
def reset (_history : List Exchange) : List Exchange :=
  []

/-- conversation.py `ConversationManager.is_active`:
`len(conversation_history) > 0`. -/
def is_active (history : List Exchange) : Bool :=
  decide (history.length > 0)

/-- conversation.py `ConversationManager.get_last_interaction_time`: the
"timestamp" field of the last exchange, `None` when the history is empty. -/
def get_last_interaction_time (history : List Exchange) : Option String :=
  match history.getLast? with
  | some e => some e.timestamp
  | none => none

/-- The fixed string conversation.py line 49 returns when `_initialized` is
false. -/
def notInitializedMsg : String :=
  "I'm not properly initialized yet. Please check the configuration."

/-- The stub responder string built at conversation.py line 54. -/
def fallbackResponse (user_input : String) : String :=
  "I understand you said: '" ++ user_input ++ "'. I'm still learning how to help you better!"

/-- conversation.py `ConversationManager.get_response`: when `_initialized` is
false, return the fixed message and touch nothing; otherwise build the stub
response, append the exchange and return it.  The result pairs the returned
string with the new history.  The `context` argument is received and ignored,
as in the source; `ts` is the timestamp `add_exchange` reads from the clock. -/
def get_response (initialized : Bool) (history : List Exchange) (user_input : String)
    (_context : Ctx) (ts : String) : String × List Exchange :=
  if !initialized then
    (notInitializedMsg, history)
  else
    let response := fallbackResponse user_input
    (response, add_exchange history ts user_input response)

/-- The state of a `PersonalAssistant` (assistant.py): the plugin registry and
the `ConversationManager` fields that the claims touch (`conversation_history`
and `_initialized`; after `PersonalAssistant._initialize` runs, `initialized`
is `true`). -/
structure AsstState where
  plugins : Registry
  history : List Exchange
  initialized : Bool

/-- assistant.py lines 56-60: the `enhanced_context` dict literal
`(timestamp, user_input, **(context or empty))` — the base entries are written
first and the caller's entries are merged over them by dict assignment. -/
def enhanced_context (now user_input : String) (context : Option Ctx) : Ctx :=
  (context.getD []).foldl (fun d kv => dictInsert d kv.1 kv.2)
    [("timestamp", now), ("user_input", user_input)]

/-- assistant.py lines 63-70: the routing scan.  Walk the registry in
insertion order; the first plugin whose `can_handle` returns true has its
`execute` run and its response returned (`some response`); `none` when no
plugin claims the input; a raised exception (`.error`) aborts the scan. -/
def scan_plugins (user_input : String) (ctx : Ctx) :
    Registry → Except String (Option String)
  | [] => Except.ok none
  | (_, p) :: rest =>
    match p.can_handle user_input with
    | Except.error e => Except.error e
    | Except.ok true =>
      match p.execute user_input ctx with
      | Except.error e => Except.error e
      | Except.ok r => Except.ok (some r)
    | Except.ok false => scan_plugins user_input ctx rest

/-- The string assistant.py line 78 returns from the top-level `except`
handler, for an exception whose `str` is `e`. -/
def errorResponse (e : String) : String :=
  "I'm sorry, I encountered an error: " ++ e

/-- assistant.py `PersonalAssistant.process_input`: build the context, scan
the registry, record the exchange and return the matched plugin's response;
fall back to `get_response` when no plugin claims the input; catch any raised
exception and return the generic error string with the state untouched.
`now` is the `datetime.now().isoformat()` read for the context, `ts` the one
read by `add_exchange`. -/
def process_input (st : AsstState) (user_input : String) (context : Option Ctx)
    (now ts : String) : String × AsstState :=
  match scan_plugins user_input (enhanced_context now user_input context) st.plugins with
  | Except.error e => (errorResponse e, st)
  | Except.ok (some response) =>
    (response, { st with history := add_exchange st.history ts user_input response })
  | Except.ok none =>
    ((get_response st.initialized st.history user_input
        (enhanced_context now user_input context) ts).1,
     { st with history := (get_response st.initialized st.history user_input
        (enhanced_context now user_input context) ts).2 })

/-- assistant.py `PersonalAssistant.reset_conversation`: delegates to
`ConversationManager.reset`. -/
def reset_conversation (st : AsstState) : AsstState :=
  { st with history := reset st.history }

/-- plugin_manager.py `_load_plugin_from_file`, the registration loop (lines
56-65): for each plugin class found in the file (their constructed instances,
in discovery order), assign `plugins[stem] = instance` where `stem` is the
file's stem.  Import and construction failures (the surrounding try) are not
in scope here — the inputs are the already constructed instances. -/
def load_plugin_from_file (plugins : Registry) (stem : String)
    (instances : List Plugin) : Registry :=
  instances.foldl (fun reg inst => dictInsert reg stem inst) plugins

/-- plugin_manager.py `PluginManager.get_plugin`: raise
`PluginError("Plugin '<name>' not found")` when the name is absent, return the
instance otherwise.  The second component of the result is the registry after
the call — the source mutates nothing, so it is returned as received. -/
def get_plugin (plugins : Registry) (name : String) :
    Except String Plugin × Registry :=
  match dictLookup plugins name with
  | none => (Except.error ("Plugin '" ++ name ++ "' not found"), plugins)
  | some p => (Except.ok p, plugins)

/-! ## Dictionary lemmas -/

theorem dictLookup_nil {V : Type} (k : String) : dictLookup ([] : List (String × V)) k = none :=
  rfl

theorem dictLookup_cons {V : Type} (p : String × V) (l : List (String × V)) (k : String) :
    dictLookup (p :: l) k = if p.1 == k then some p.2 else dictLookup l k := by
  by_cases h : (p.1 == k) = true
  · simp [dictLookup, List.find?_cons, h]
  · simp [dictLookup, List.find?_cons, h]

/-- Unfolding equation for `dictInsert` on a nonempty dict. -/
theorem dictInsert_cons {V : Type} (a : String × V) (d : List (String × V))
    (k0 : String) (v0 : V) :
    dictInsert (a :: d) k0 v0 =
      if a.1 == k0 then
        (k0, v0) :: d.map (fun p => if p.1 == k0 then (k0, v0) else p)
      else a :: dictInsert d k0 v0 := by
  by_cases h : (a.1 == k0) = true
  · have ha : a.1 = k0 := by simpa using h
    simp [dictInsert, List.any_cons, h, ha]
  · have ha : ¬ a.1 = k0 := by simpa using h
    by_cases hd : (d.any fun p => p.1 == k0) = true
    · simp [dictInsert, List.any_cons, h, ha, hd]
    · simp [dictInsert, List.any_cons, h, ha, hd]

/-- Replacing the value stored under a key other than `k` does not change what
lookup at `k` sees. -/
theorem dictLookup_map_replace {V : Type} (d : List (String × V)) (k0 : String) (v0 : V)
    (k : String) (hk : k ≠ k0) :
    dictLookup (d.map (fun p => if p.1 == k0 then (k0, v0) else p)) k = dictLookup d k := by
  induction d with
  | nil => rfl
  | cons a d ih =>
    by_cases ha : a.1 = k0
    · have h1 : (a.1 == k0) = true := by simp [ha]
      have h2 : ¬ (a.1 == k) = true := by simp [ha, Ne.symm hk]
      have h3 : ¬ ((k0 : String) == k) = true := by simp [Ne.symm hk]
      simp only [List.map_cons, h1, if_true, dictLookup_cons]
      simp only [h2, h3, if_neg, ih]
      simp
    · have h1 : ¬ (a.1 == k0) = true := by simp [ha]
      simp only [List.map_cons, h1, if_neg, if_false, dictLookup_cons, ih]
      simp [h1]

/-- Lookup after a Python dict assignment: the assigned key now carries the
assigned value, every other key is untouched. -/
theorem dictLookup_dictInsert {V : Type} (d : List (String × V)) (k0 : String) (v0 : V)
    (k : String) :
    dictLookup (dictInsert d k0 v0) k = if k = k0 then some v0 else dictLookup d k := by
  induction d with
  | nil =>
    have hbase : dictInsert ([] : List (String × V)) k0 v0 = [(k0, v0)] := rfl
    rw [hbase, dictLookup_cons]
    by_cases hk : k = k0
    · subst hk; simp
    · have hb : ¬ ((k0 : String) == k) = true := by simp [Ne.symm hk]
      simp [hb, hk]
  | cons a d ih =>
    rw [dictInsert_cons]
    by_cases h : (a.1 == k0) = true
    · have ha : a.1 = k0 := by simpa using h
      rw [if_pos h, dictLookup_cons, dictLookup_cons]
      by_cases hk : k = k0
      · subst hk; simp
      · have hb : ¬ ((k0 : String) == k) = true := by simp [Ne.symm hk]
        have hak : ¬ (a.1 == k) = true := by simp [ha, Ne.symm hk]
        rw [if_neg hb, if_neg hk, if_neg hak, dictLookup_map_replace d k0 v0 k hk]
    · have ha : ¬ a.1 = k0 := by simpa using h
      rw [if_neg h, dictLookup_cons, dictLookup_cons, ih]
      by_cases hak : (a.1 == k) = true
      · have hak1 : a.1 = k := by simpa using hak
        have hk0 : ¬ k = k0 := by rw [← hak1]; exact ha
        simp [hak, hk0]
      · simp [hak]

/-- Lookup after merging a list of assignments `l` over a dict `d` (the
semantics of `(base, **extra)`): the last binding in `l` wins; a key unbound in
`l` keeps its value from `d`. -/
theorem dictLookup_foldl_dictInsert {V : Type} (l : List (String × V)) :
    ∀ (d : List (String × V)) (k : String),
      dictLookup (l.foldl (fun acc kv => dictInsert acc kv.1 kv.2) d) k
        = match lookupLast l k with
          | some v => some v
          | none => dictLookup d k := by
  induction l with
  | nil => intro d k; rfl
  | cons kv rest ih =>
    intro d k
    simp only [List.foldl_cons]
    rw [ih]
    cases hv : lookupLast rest k with
    | some v =>
      simp only [hv]
      simp [lookupLast, hv]
    | none =>
      simp only [hv]
      rw [dictLookup_dictInsert]
      by_cases hk : k = kv.1
      · have hb : (kv.1 == k) = true := by simp [hk]
        rw [if_pos hk]
        simp [lookupLast, hv, hb]
      · have hb : ¬ (kv.1 == k) = true := by simp [Ne.symm hk]
        rw [if_neg hk]
        simp [lookupLast, hv, hb]

/-! ## Conversation-history lemmas -/

/-- One `add_exchange` step, taking the exchange as a record. -/
def add_exchange_step (history : List Exchange) (e : Exchange) : List Exchange :=
  add_exchange history e.timestamp e.user e.assistant

theorem add_exchange_step_eq (history : List Exchange) (e : Exchange) :
    add_exchange_step history e =
      if (history ++ [e]).length > 50 then
        (history ++ [e]).drop ((history ++ [e]).length - 50)
      else history ++ [e] :=
  rfl

theorem length_add_exchange_step (history : List Exchange) (e : Exchange)
    (_h : history.length ≤ 50) :
    (add_exchange_step history e).length ≤ 50 := by
  rw [add_exchange_step_eq]
  by_cases hl : (history ++ [e]).length > 50
  · rw [if_pos hl, List.length_drop]
    omega
  · rw [if_neg hl]
    omega

theorem length_add_exchange (history : List Exchange) (ts ui ar : String)
    (h : history.length ≤ 50) :
    (add_exchange history ts ui ar).length ≤ 50 :=
  length_add_exchange_step history ⟨ts, ui, ar⟩ h

/-- Folding `add_exchange` over a list of exchanges, starting from a history
within the cap, leaves exactly the most recent 50 entries of the concatenated
sequence, in order. -/
theorem foldl_add_exchange (es : List Exchange) :
    ∀ history : List Exchange, history.length ≤ 50 →
      es.foldl add_exchange_step history
        = (history ++ es).drop ((history ++ es).length - 50) := by
  induction es with
  | nil =>
    intro history h
    simp only [List.foldl_nil, List.append_nil]
    rw [Nat.sub_eq_zero_of_le h, List.drop_zero]
  | cons e es ih =>
    intro history h
    simp only [List.foldl_cons]
    by_cases hl : history.length < 50
    · have hstep : add_exchange_step history e = history ++ [e] := by
        rw [add_exchange_step_eq, if_neg]
        simp only [List.length_append, List.length_singleton]
        omega
      rw [hstep, ih (history ++ [e]) (by simp; omega)]
      simp [List.append_assoc]
    · have h50 : history.length = 50 := by omega
      have hstep : add_exchange_step history e = (history ++ [e]).drop 1 := by
        rw [add_exchange_step_eq, if_pos]
        · congr 1
          simp [h50]
        · simp [h50]
      have hlen : ((history ++ [e]).drop 1).length = 50 := by
        simp [h50]
      rw [hstep, ih _ (le_of_eq hlen)]
      have hone : (1 : ℕ) ≤ (history ++ [e]).length := by simp
      have hAes : ((history ++ [e]).drop 1 ++ es).length = 50 + es.length := by
        rw [List.length_append, hlen]
      rw [hAes]
      have hsub : 50 + es.length - 50 = es.length := by omega
      rw [hsub, ← List.drop_append_of_le_length hone, List.drop_drop]
      have hassoc : history ++ [e] ++ es = history ++ e :: es := by
        simp
      rw [hassoc]
      have hlen2 : (history ++ e :: es).length - 50 = 1 + es.length := by
        simp only [List.length_append, List.length_cons, h50]
        omega
      rw [hlen2]

/-! ## Routing-scan lemmas -/

/-- The scan skips a prefix of plugins none of which claims the input. -/
theorem scan_plugins_append_of_no_claim (user_input : String) (ctx : Ctx)
    (ps₁ ps₂ : Registry)
    (h : ∀ q ∈ ps₁, q.2.can_handle user_input = Except.ok false) :
    scan_plugins user_input ctx (ps₁ ++ ps₂) = scan_plugins user_input ctx ps₂ := by
  induction ps₁ with
  | nil => rfl
  | cons a ps₁ ih =>
    have ha : a.2.can_handle user_input = Except.ok false :=
      h a (List.mem_cons_self a ps₁)
    have htail : ∀ q ∈ ps₁, q.2.can_handle user_input = Except.ok false :=
      fun q hq => h q (List.mem_cons_of_mem a hq)
    calc scan_plugins user_input ctx ((a :: ps₁) ++ ps₂)
        = scan_plugins user_input ctx (ps₁ ++ ps₂) := by
          obtain ⟨nm, p⟩ := a
          simp only [List.cons_append, scan_plugins]
          rw [ha]
          rfl
      _ = scan_plugins user_input ctx ps₂ := ih htail

/-- A registry in which no plugin claims the input scans to `none`. -/
theorem scan_plugins_none (user_input : String) (ctx : Ctx) (ps : Registry)
    (h : ∀ q ∈ ps, q.2.can_handle user_input = Except.ok false) :
    scan_plugins user_input ctx ps = Except.ok none := by
  have := scan_plugins_append_of_no_claim user_input ctx ps [] h
  simpa using this

/-- The first claiming plugin's `execute` decides the scan: whatever stands
after it in the registry plays no part. -/
theorem scan_plugins_first_claim (user_input : String) (ctx : Ctx)
    (ps₁ ps₂ : Registry) (nm : String) (p : Plugin)
    (h₁ : ∀ q ∈ ps₁, q.2.can_handle user_input = Except.ok false)
    (h₂ : p.can_handle user_input = Except.ok true) :
    scan_plugins user_input ctx (ps₁ ++ (nm, p) :: ps₂)
      = match p.execute user_input ctx with
        | Except.error e => Except.error e
        | Except.ok r => Except.ok (some r) := by
  rw [scan_plugins_append_of_no_claim user_input ctx ps₁ ((nm, p) :: ps₂) h₁]
  simp only [scan_plugins]
  rw [h₂]

/-! ## Concrete fixtures used by the closed theorems -/

/-- A plugin whose configuration disabled it but whose `can_handle` claims
every input. -/
def pDisabled : Plugin :=
  { enabled := false
    can_handle := fun _ => Except.ok true
    execute := fun _ _ => Except.ok "DISABLED PLUGIN RAN" }

/-- An enabled plugin claiming every input. -/
def pFirstEnabled : Plugin :=
  { enabled := true
    can_handle := fun _ => Except.ok true
    execute := fun _ _ => Except.ok "FIRST ENABLED" }

/-- A second enabled plugin claiming every input. -/
def pSecondEnabled : Plugin :=
  { enabled := true
    can_handle := fun _ => Except.ok true
    execute := fun _ _ => Except.ok "SECOND ENABLED" }

/-- An enabled plugin that claims nothing. -/
def pNonClaiming : Plugin :=
  { enabled := true
    can_handle := fun _ => Except.ok false
    execute := fun _ _ => Except.ok "NEVER" }

/-- A plugin whose `can_handle` raises. -/
def pRaising : Plugin :=
  { enabled := true
    can_handle := fun _ => Except.error "boom"
    execute := fun _ _ => Except.ok "NEVER" }

/-- A plugin whose `execute` answers with the `user_input` entry of the
context map it received. -/
def pContextEcho : Plugin :=
  { enabled := true
    can_handle := fun _ => Except.ok true
    execute := fun _ ctx => Except.ok ((dictLookup ctx "user_input").getD "MISSING") }

/-- An assistant whose registry holds only the disabled claiming plugin. -/
def stDisabledOnly : AsstState :=
  { plugins := [("disabled_plugin", pDisabled)], history := [], initialized := true }

/-- An assistant whose registry holds the disabled claiming plugin first and
two enabled claiming plugins after it. -/
def stDisabledFirst : AsstState :=
  { plugins := [("d", pDisabled), ("a", pFirstEnabled), ("b", pSecondEnabled)]
    history := [], initialized := true }

/-- An assistant whose registry holds a non-claiming plugin and then the two
enabled claiming plugins. -/
def stTwoEnabled : AsstState :=
  { plugins := [("n", pNonClaiming), ("a", pFirstEnabled), ("b", pSecondEnabled)]
    history := [], initialized := true }

/-- An assistant holding only the raising plugin, with one prior exchange. -/
def stRaising : AsstState :=
  { plugins := [("r", pRaising)], history := [⟨"T0", "earlier", "reply"⟩]
    initialized := true }

/-- An assistant holding only the context-echo plugin. -/
def stContextEcho : AsstState :=
  { plugins := [("echo", pContextEcho)], history := [], initialized := true }

/-- An assistant holding only the non-claiming plugin. -/
def stNoClaim : AsstState :=
  { plugins := [("n", pNonClaiming)], history := [], initialized := true }

/-- Fifty-one identical exchanges. -/
def es51 : List Exchange :=
  List.replicate 51 ⟨"T", "u", "a"⟩

/-- The first of two plugin classes a single plugin file defines. -/
def pOverwritten : Plugin :=
  { enabled := true
    can_handle := fun _ => Except.ok false
    execute := fun _ _ => Except.ok "FIRST CLASS" }

/-- The second of two plugin classes a single plugin file defines. -/
def pOverwriting : Plugin :=
  { enabled := true
    can_handle := fun _ => Except.ok false
    execute := fun _ _ => Except.ok "SECOND CLASS" }

/-! ## Claim theorems -/

/-- C1: the claim says a disabled plugin is never routed to, but the routing
scan of `process_input` (assistant.py lines 63-64) tests only `can_handle` and
never consults `is_enabled`, so a disabled plugin whose `can_handle` accepts
the input has its `execute` run and its exchange recorded.  This theorem
evaluates the code at the failing input: one registered plugin with
`enabled=false` claiming the input "hello". -/
theorem disabled_plugin_routed :
    is_enabled pDisabled = false
    ∧ pDisabled.can_handle "hello" = Except.ok true
    ∧ process_input stDisabledOnly "hello" none "T1" "T2"
        = ("DISABLED PLUGIN RAN",
           { stDisabledOnly with history := [⟨"T2", "hello", "DISABLED PLUGIN RAN"⟩] }) :=
  ⟨rfl, rfl, rfl⟩

/-- C2 counterexample: with registry order [disabled claimer, enabled claimer
"FIRST ENABLED", enabled claimer "SECOND ENABLED"], the input "remind me" is
claimed by two enabled plugins, yet `process_input` returns the disabled
plugin's response, not that of the earliest-registered enabled matching
plugin — the claim as stated fails at this input. -/
theorem earliest_enabled_claimer_not_routed :
    pFirstEnabled.enabled = true
    ∧ pSecondEnabled.enabled = true
    ∧ pFirstEnabled.can_handle "remind me" = Except.ok true
    ∧ pSecondEnabled.can_handle "remind me" = Except.ok true
    ∧ (process_input stDisabledFirst "remind me" none "T1" "T2").1 = "DISABLED PLUGIN RAN"
    ∧ "DISABLED PLUGIN RAN" ≠ "FIRST ENABLED" :=
  ⟨rfl, rfl, rfl, rfl, rfl, by decide⟩

/-- C2 amended: the scan routes to the claiming plugin that was registered
earliest in insertion order regardless of the enabled flags — whenever the
plugins before `p` all decline the input and `p` claims it, `process_input`
runs exactly `p`'s `execute`, returns its response and records the exchange;
the plugins after `p` play no part (the conclusion does not depend on `ps₂`),
and the embedding is a pure function, so the choice is the same on every
call. -/
theorem first_match_wins (st : AsstState) (ps₁ ps₂ : Registry) (nm : String) (p : Plugin)
    (user_input : String) (context : Option Ctx) (now ts r : String)
    (hps : st.plugins = ps₁ ++ (nm, p) :: ps₂)
    (h₁ : ∀ q ∈ ps₁, q.2.can_handle user_input = Except.ok false)
    (h₂ : p.can_handle user_input = Except.ok true)
    (hr : p.execute user_input (enhanced_context now user_input context) = Except.ok r) :
    process_input st user_input context now ts
      = (r, { st with history := add_exchange st.history ts user_input r }) := by
  unfold process_input
  rw [hps, scan_plugins_first_claim _ _ _ _ _ _ h₁ h₂, hr]

/-- C2 witness: a concrete registry [non-claimer, "FIRST ENABLED",
"SECOND ENABLED"] routed at "remind me". -/
theorem first_match_wins_witness :
    process_input stTwoEnabled "remind me" none "T1" "T2"
      = ("FIRST ENABLED",
         { stTwoEnabled with history := [⟨"T2", "remind me", "FIRST ENABLED"⟩] }) := by
  exact first_match_wins stTwoEnabled [("n", pNonClaiming)] [("b", pSecondEnabled)]
    "a" pFirstEnabled "remind me" none "T1" "T2" "FIRST ENABLED" rfl
    (by intro q hq; rw [List.mem_singleton] at hq; subst hq; rfl) rfl rfl

/-- C3 counterexample: the dict literal of assistant.py lines 56-60 merges the
caller's `extra_context` LAST, so caller-supplied entries under the reserved
keys "timestamp" and "user_input" override the orchestrator's own values, and
the overridden map is what the selected plugin's `execute` receives — the
claim as stated fails at this input. -/
theorem context_reserved_keys_overridden :
    dictLookup (enhanced_context "T1" "real input"
        (some [("user_input", "forged input"), ("timestamp", "T9")])) "user_input"
      = some "forged input"
    ∧ dictLookup (enhanced_context "T1" "real input"
        (some [("user_input", "forged input"), ("timestamp", "T9")])) "timestamp"
      = some "T9"
    ∧ (process_input stContextEcho "real input"
        (some [("user_input", "forged input")]) "T1" "T2").1 = "forged input"
    ∧ "forged input" ≠ "real input" :=
  ⟨rfl, rfl, rfl, by decide⟩

/-- C3 amended: in the context map built by `process_input`, a reserved key
("timestamp" / "user_input") carries the orchestrator's own value only when
`extra_context` does not bind that key; when it does, the caller's (last)
binding overrides the orchestrator's value, and every non-reserved key carries
exactly its last binding in `extra_context`. -/
theorem enhanced_context_lookup (now user_input : String) (extra : Ctx) (k : String)
    (hk1 : k ≠ "timestamp") (hk2 : k ≠ "user_input") :
    dictLookup (enhanced_context now user_input (some extra)) "timestamp"
        = some ((lookupLast extra "timestamp").getD now)
    ∧ dictLookup (enhanced_context now user_input (some extra)) "user_input"
        = some ((lookupLast extra "user_input").getD user_input)
    ∧ dictLookup (enhanced_context now user_input (some extra)) k = lookupLast extra k := by
  unfold enhanced_context
  simp only [Option.getD_some]
  refine ⟨?_, ?_, ?_⟩ <;> rw [dictLookup_foldl_dictInsert]
  · cases h : lookupLast extra "timestamp" with
    | some v => simp [h]
    | none => simp only [h]; rfl
  · cases h : lookupLast extra "user_input" with
    | some v => simp [h]
    | none => simp only [h]; rfl
  · cases h : lookupLast extra k with
    | some v => simp [h]
    | none =>
      simp only [h]
      have hb1 : ¬ (("timestamp" : String) == k) = true := by simp [Ne.symm hk1]
      have hb2 : ¬ (("user_input" : String) == k) = true := by simp [Ne.symm hk2]
      rw [dictLookup_cons, if_neg hb1, dictLookup_cons, if_neg hb2, dictLookup_nil]

/-- C3 amended witness: a concrete `extra_context` binding "timestamp" but not
"x": the merged map carries the caller's "T9" under "timestamp", the
orchestrator's raw input under "user_input", and "1" under "x". -/
theorem enhanced_context_lookup_witness :
    dictLookup (enhanced_context "T1" "real input"
        (some [("x", "1"), ("timestamp", "T9")])) "timestamp" = some "T9"
    ∧ dictLookup (enhanced_context "T1" "real input"
        (some [("x", "1"), ("timestamp", "T9")])) "user_input" = some "real input"
    ∧ dictLookup (enhanced_context "T1" "real input"
        (some [("x", "1"), ("timestamp", "T9")])) "x" = some "1" := by
  exact enhanced_context_lookup "T1" "real input" [("x", "1"), ("timestamp", "T9")] "x"
    (by decide) (by decide)

/-- C4: when anything raised during the scan — a plugin's `can_handle` or
`execute` — makes `process_input` fault, the top-level handler returns the
generic error string and the whole assistant state, its conversation history
included, is exactly what it was before the call; no exchange is recorded.
The context build and the stub fallback responder are pure in the source and
cannot fault, so the scan is the embedding's only fault source. -/
theorem process_fault_state_unchanged (st : AsstState) (user_input : String)
    (context : Option Ctx) (now ts e : String)
    (hfault : scan_plugins user_input (enhanced_context now user_input context) st.plugins
        = Except.error e) :
    process_input st user_input context now ts = (errorResponse e, st) := by
  unfold process_input
  rw [hfault]

/-- C4 witness: a registry whose only plugin raises "boom" from `can_handle`;
the response is the generic error string and the one prior exchange is still
the whole history. -/
theorem process_fault_state_unchanged_witness :
    process_input stRaising "hello" none "T1" "T2"
      = ("I'm sorry, I encountered an error: boom", stRaising) := by
  exact process_fault_state_unchanged stRaising "hello" none "T1" "T2" "boom" rfl

/-- C5: `add_exchange` keeps the history within the 50-entry cap at every
single append, and appending any sequence of more than 50 exchanges to an
empty history leaves exactly the last 50 of them, in their original (append)
order — the oldest entries are discarded from the front. -/
theorem conversation_history_capped (history : List Exchange) (ts ui ar : String)
    (es : List Exchange) (hb : history.length ≤ 50) (hn : 50 < es.length) :
    (add_exchange history ts ui ar).length ≤ 50
    ∧ es.foldl add_exchange_step [] = es.drop (es.length - 50)
    ∧ (es.foldl add_exchange_step []).length = 50 := by
  have h2 : es.foldl add_exchange_step [] = es.drop (es.length - 50) := by
    have := foldl_add_exchange es [] (by simp)
    simpa using this
  refine ⟨length_add_exchange history ts ui ar hb, h2, ?_⟩
  rw [h2, List.length_drop]
  omega

/-- C5 witness: 51 appends onto an empty history keep exactly the last 50. -/
theorem conversation_history_capped_witness :
    (add_exchange [] "T" "u" "a").length ≤ 50
    ∧ es51.foldl add_exchange_step [] = es51.drop (es51.length - 50)
    ∧ (es51.foldl add_exchange_step []).length = 50 := by
  exact conversation_history_capped [] "T" "u" "a" es51 (by decide) (by decide)

/-- C6 counterexample: with a registry holding one disabled plugin that claims
"hi", no ENABLED plugin's `can_handle` returns true, yet `process_input` does
not return the fallback responder's output and does not record the fallback
exchange — it routes to the disabled plugin — so the claim as stated fails at
this input. -/
theorem fallback_skipped_by_disabled_claimer :
    (∀ q ∈ stDisabledOnly.plugins, is_enabled q.2 = true →
        ¬ q.2.can_handle "hi" = Except.ok true)
    ∧ (process_input stDisabledOnly "hi" none "T1" "T2").1 = "DISABLED PLUGIN RAN"
    ∧ "DISABLED PLUGIN RAN" ≠ fallbackResponse "hi"
    ∧ (process_input stDisabledOnly "hi" none "T1" "T2").2.history
        ≠ add_exchange stDisabledOnly.history "T2" "hi" (fallbackResponse "hi") := by
  refine ⟨?_, rfl, by decide, by decide⟩
  intro q hq he
  simp only [stDisabledOnly, List.mem_singleton] at hq
  subst hq
  simp [is_enabled, pDisabled] at he

/-- C6 amended: for every input that NO registered plugin — enabled or
disabled — claims, `process_input` hands the same context map to the fallback
responder `get_response`, returns exactly its output, and (the manager being
initialized, as it is after startup) records that (input, response) pair as an
exchange. -/
theorem no_claimer_falls_back (st : AsstState) (user_input : String) (context : Option Ctx)
    (now ts : String) (hinit : st.initialized = true)
    (hnone : ∀ q ∈ st.plugins, q.2.can_handle user_input = Except.ok false) :
    process_input st user_input context now ts
      = (fallbackResponse user_input,
         { st with history :=
            add_exchange st.history ts user_input (fallbackResponse user_input) }) := by
  unfold process_input
  rw [scan_plugins_none _ _ _ hnone]
  unfold get_response
  rw [hinit]
  rfl

/-- C6 amended witness: one registered non-claiming plugin; the fallback
answers and the exchange is recorded. -/
theorem no_claimer_falls_back_witness :
    process_input stNoClaim "what is the weather" none "T1" "T2"
      = (fallbackResponse "what is the weather",
         { stNoClaim with history :=
            [⟨"T2", "what is the weather", fallbackResponse "what is the weather"⟩] }) := by
  exact no_claimer_falls_back stNoClaim "what is the weather" none "T1" "T2" rfl
    (by intro q hq; simp only [stNoClaim, List.mem_singleton] at hq; subst hq; rfl)

/-- C7: the claim says the loader rejects name collisions, but when one plugin
file yields two plugin classes, `_load_plugin_from_file` (plugin_manager.py
line 64) assigns both under the same stem-derived key: the later class
silently overwrites the earlier one and no error is signalled — the returned
registry simply holds the second instance.  (Spec §9 itself flags this source
behavior as likely unintended.) -/
theorem loader_silently_overwrites :
    load_plugin_from_file [] "task_plugin" [pOverwritten, pOverwriting]
        = [("task_plugin", pOverwriting)]
    ∧ (dictLookup (load_plugin_from_file [] "task_plugin" [pOverwritten, pOverwriting])
        "task_plugin").map (fun p => p.execute "x" []) = some (Except.ok "SECOND CLASS")
    ∧ pOverwritten ≠ pOverwriting := by
  refine ⟨rfl, rfl, ?_⟩
  intro h
  have h2 : pOverwritten.execute "x" [] = pOverwriting.execute "x" [] :=
    congrArg (fun p => p.execute "x" []) h
  have h3 : (Except.ok "FIRST CLASS" : Except String String) = Except.ok "SECOND CLASS" := h2
  injection h3 with h4
  exact absurd h4 (by decide)

/-- C8: `get_plugin` returns the plugin registered under the name exactly when
one exists — and that (name, plugin) pair is genuinely an entry of the
registry — and raises `PluginError` ("Plugin '<name>' not found") exactly when
no entry carries the name; the registry it hands back is the one it received,
unchanged, in both cases. -/
theorem get_plugin_spec (reg : Registry) (name : String) :
    (∀ p, dictLookup reg name = some p →
        (name, p) ∈ reg ∧ get_plugin reg name = (Except.ok p, reg))
    ∧ (dictLookup reg name = none ↔ ∀ q ∈ reg, q.1 ≠ name)
    ∧ (dictLookup reg name = none →
        get_plugin reg name = (Except.error ("Plugin '" ++ name ++ "' not found"), reg)) := by
  refine ⟨?_, ?_, ?_⟩
  · intro p hp
    refine ⟨?_, by unfold get_plugin; rw [hp]⟩
    unfold dictLookup at hp
    obtain ⟨q, hq, hmap⟩ := Option.map_eq_some'.mp hp
    have hmem := List.mem_of_find?_eq_some hq
    have hpred : q.1 = name := by simpa using List.find?_some hq
    have hqp : q = (name, p) := by
      obtain ⟨q1, q2⟩ := q
      simp only at hpred hmap
      rw [hpred, hmap]
    rw [← hqp]
    exact hmem
  · unfold dictLookup
    rw [Option.map_eq_none', List.find?_eq_none]
    simp
  · intro h
    unfold get_plugin
    rw [h]

/-- C9: `reset` is idempotent (clearing a cleared history changes nothing, and
so for the delegating `reset_conversation`), and immediately after
`reset_conversation` the history holds no exchanges, `is_active` is false and
`get_last_interaction_time` is the absent value. -/
theorem reset_idempotent_and_clears :
    ∀ (history : List Exchange) (st : AsstState),
      reset (reset history) = reset history
      ∧ reset_conversation (reset_conversation st) = reset_conversation st
      ∧ (reset_conversation st).history = []
      ∧ is_active (reset_conversation st).history = false
      ∧ get_last_interaction_time (reset_conversation st).history = none := by
  intro history st
  exact ⟨rfl, rfl, rfl, rfl, rfl⟩

/-- C10: when the manager was never initialized, `get_response` answers every
input reaching the fallback path with the fixed not-initialized string and
appends nothing — the history component it returns is its input history. -/
theorem get_response_uninitialized :
    ∀ (history : List Exchange) (user_input : String) (context : Ctx) (ts : String),
      get_response false history user_input context ts = (notInitializedMsg, history) := by
  intro history user_input context ts
  rfl

end Assistant
